import Mathlib

/-!
Verification of the HpiLibrary connection/selection state machine and
symbolic-name resolver (robotframework-hpilibrary).

The definitions below are a shallow embedding of the Python sources
`src/HpiLibrary/__init__.py`, `src/HpiLibrary/utils.py` and
`src/HpiLibrary/mapping.py`.  External collaborators (the pyhpi transport,
Robot Framework's `ConnectionCache` and `normalize`) are modelled from the
spec where noted; everything else is translated directly from the source.

Conventions:
  * Python exceptions become `Except HpiErr` results.
  * The external session/listener is represented by a trace of poll
    outcomes handed to the polling keywords; logical time is a `Nat`
    accumulating the duration of each external call and each sleep.
  * Python `dict`s become association lists (`assocGet` / `assocSet`),
    which capture the lookup/insert/overwrite semantics used by the code.
-/

deriving instance DecidableEq for Except

namespace HpiLibrary

/-- Python exceptions raised by the library, by kind and payload. -/
inductive HpiErr where
  | runtimeError (msg : String)
  | keyError (key : String)
  | assertionError (msg : String)
  | attributeError (msg : String)
  deriving DecidableEq

/-- An opaque connection handle (a pyhpi `Session` object identity). -/
abbrev Session := Nat

/-- Lookup in an association list, i.e. Python `d[k]` returning `none` for a
missing key (the caller decides whether that is a `KeyError`). -/
def assocGet {α β : Type} [DecidableEq α] : List (α × β) → α → Option β
  | [], _ => none
  | (k2, v2) :: rest, k => if k2 = k then some v2 else assocGet rest k

/-- Python `d[k] = v`: overwrite the existing entry for `k` in place, or
append a new entry when `k` is not yet a key. -/
def assocSet {α β : Type} [DecidableEq α] : List (α × β) → α → β → List (α × β)
  | [], k, v => [(k, v)]
  | (k2, v2) :: rest, k, v =>
      if k2 = k then (k, v) :: rest else (k2, v2) :: assocSet rest k v

/-- An event delivered by the session's event listener (`event.event_type`). -/
structure Event where
  eventType : Nat
  deriving DecidableEq

/-- The runtime class of a resource descriptor record: `FumiRdr`, `DimiRdr`
or some other RDR class (Python `isinstance` test). -/
inductive RdrKind where
  | fumi
  | dimi
  | other
  deriving DecidableEq

/-- A resource descriptor record: its runtime class, its `id_string` and its
remaining payload (record number etc.), which distinguishes records that
share a class and id string. -/
structure Rdr where
  kind : RdrKind
  idString : String
  num : Nat
  deriving DecidableEq

/-- A resource as returned by `session.get_resources_by_entity_path`. -/
structure Resource where
  entityPath : String
  rdrs : List Rdr
  deriving DecidableEq

/-- A value stored in a per-connection selection scope (`self._cp[...]`). -/
inductive SelVal where
  | path (p : String)
  | rdr (r : Rdr)
  | event (e : Event)
  | num (n : Nat)
  | bank (b : Nat)
  | test (t : Nat)
  deriving DecidableEq

/-- One connection's selection scope: the string-keyed dict stored in
`PerConnectionStorage._cp_storage` for that connection. -/
abbrev Scope := List (String × SelVal)

/-- An argument to `switch_hpi_connection`: a 1-based index or an alias. -/
inductive IndexOrAlias where
  | idx (n : Nat)
  | al (a : String)
  deriving DecidableEq

/-- Modelled from the spec: the external connection cache
(`robot.utils.connectioncache.ConnectionCache`, not part of this
repository).  Per the spec it registers handles under 1-based monotonically
increasing indices with optional aliases, tracks the current index, and
`switch` resolves an index or alias, fails when no entry matches, and makes
the resolved entry current; the resolved handle is returned to the caller
(the keyword layer assigns it and reports the previously current index). -/
structure ConnectionCache where
  entries : List (Option String × Session)
  currentIndex : Option Nat
  deriving DecidableEq

/-- Modelled from the spec: `ConnectionCache.register` assigns the next
sequential index starting at 1, stores the entry, makes it current and
returns its index. -/
def cacheRegister (c : ConnectionCache) (s : Session) (al : Option String) :
    Nat × ConnectionCache :=
  let i := c.entries.length + 1
  (i, { entries := c.entries ++ [(al, s)], currentIndex := some i })

/-- Modelled from the spec: resolve a positive 1-based index or an alias to
`(index, handle)`, or `none` when no entry matches. -/
def cacheResolve (c : ConnectionCache) : IndexOrAlias → Option (Nat × Session)
  | .idx n =>
      match c.entries.get? (n - 1) with
      | some e => if 1 ≤ n then some (n, e.2) else none
      | none => none
  | .al a =>
      match c.entries.findIdx? (fun e => e.1 = some a) with
      | some i =>
          match c.entries.get? i with
          | some e => some (i + 1, e.2)
          | none => none
      | none => none

/-- Modelled from the spec: `ConnectionCache.switch` makes the resolved
entry current and returns its handle; an unknown index or alias fails. -/
def cacheSwitch (c : ConnectionCache) (ioa : IndexOrAlias) :
    Except HpiErr (Session × ConnectionCache) :=
  match cacheResolve c ioa with
  | none => .error (.runtimeError "Non-existing index or alias")
  | some (i, s) => .ok (s, { c with currentIndex := some i })

/-- The mutable state of one `HpiLibrary` instance: the connection cache,
the `_active_session` attribute, the `_active_device` attribute assigned by
`switch_hpi_connection`, the `PerConnectionStorage._cp_storage` dict, and
the timeout / poll-interval configuration. -/
structure LibState where
  cache : ConnectionCache
  activeSession : Option Session
  activeDevice : Option Session
  storage : List (Session × Scope)
  timeout : Nat
  pollInterval : Nat
  deriving DecidableEq

/-- `open_hpi_connection` (lines 61-81): the externally created session
(passed in here, since its construction is transport work) becomes
`_active_session` and is registered in the cache; the new index is
returned. -/
def openHpiConnection (st : LibState) (s : Session) (al : Option String) :
    Nat × LibState :=
  let (i, cache2) := cacheRegister st.cache s al
  (i, { st with cache := cache2, activeSession := some s })

/-- `switch_hpi_connection` (lines 83-94), translated exactly as written:
it records `self._cache.current_index`, calls `self._cache.switch` and
assigns the result to `self._active_device` — not to `self._active_session`
— then returns the old index. -/
def switchHpiConnection (st : LibState) (ioa : IndexOrAlias) :
    Except HpiErr (Option Nat × LibState) :=
  let oldIndex := st.cache.currentIndex
  match cacheSwitch st.cache ioa with
  | .error e => .error e
  | .ok (s, cache2) =>
      .ok (oldIndex, { st with cache := cache2, activeDevice := some s })

/-- An externally visible action performed on the transport. -/
inductive Effect where
  | closeTransport (s : Session)
  deriving DecidableEq

/-- `close_hpi_connection` (lines 96-99): `self._active_session.close()` —
it emits a close on the active session's transport and changes no library
state; with no active session, `None.close()` raises `AttributeError`. -/
def closeHpiConnection (st : LibState) : Except HpiErr (List Effect × LibState) :=
  match st.activeSession with
  | none => .error (.attributeError "NoneType object has no attribute close")
  | some s => .ok ([Effect.closeTransport s], st)

/-- `PerConnectionStorage._cp` (utils.py lines 31-41) as used by
`HpiLibrary` (where `_cp_propname` is `_active_session`, always an
attribute): fails when no connection is active, otherwise returns the
active connection's scope, creating an empty one on first access. -/
def cpScope (st : LibState) : Except HpiErr (Scope × LibState) :=
  match st.activeSession with
  | none => .error (.runtimeError "No connection active")
  | some h =>
      match assocGet st.storage h with
      | some sc => .ok (sc, st)
      | none => .ok ([], { st with storage := st.storage ++ [(h, [])] })

/-- A read `self._cp[k]`: go through `_cp`, then Python dict lookup, which
raises `KeyError(k)` when the key was never set in the active scope. -/
def cpRead (st : LibState) (k : String) : Except HpiErr (SelVal × LibState) :=
  match cpScope st with
  | .error e => .error e
  | .ok (sc, st2) =>
      match assocGet sc k with
      | some v => .ok (v, st2)
      | none => .error (.keyError k)

/-- A write `self._cp[k] = v`: go through `_cp` (lazily creating the active
connection's scope), then assign the key in that scope. -/
def cpWrite (st : LibState) (k : String) (v : SelVal) : Except HpiErr LibState :=
  match st.activeSession with
  | none => .error (.runtimeError "No connection active")
  | some h =>
      let sc := (assocGet st.storage h).getD []
      .ok { st with storage := assocSet st.storage h (assocSet sc k v) }

/-- The error message of `_selected_resource` (used for zero matches and
for more than one match alike). -/
def resourceErrMsg : String :=
  "More than one resources were retrieved using the entity path"

/-- `_selected_resource` (lines 122-128), from the point where the session
returned the resources matching the selected entity path: exactly one match
is required, `res[0]` is returned; any other count raises the same
`RuntimeError`. -/
def selectedResource (res : List Resource) : Except HpiErr Resource :=
  if h : res.length = 1 then .ok (res.get ⟨0, by omega⟩)
  else .error (.runtimeError resourceErrMsg)

/-- The match test of `_find_rdr`: `isinstance(rdr, rdr_type)` and
`rdr.id_string == id`. -/
def rdrMatches (ty : RdrKind) (id : String) (r : Rdr) : Bool :=
  r.kind = ty ∧ r.idString = id

/-- `_find_rdr` (lines 130-138), iterating the selected resource's records
in declaration order and returning the first whose runtime class and id
string match, or `none`. -/
def findRdr (rdrs : List Rdr) (ty : RdrKind) (id : String) : Option Rdr :=
  rdrs.find? (rdrMatches ty id)

/-- `_rdr_should_exist` (lines 140-144): no match raises the
`AssertionError` (whose text always says FUMI); a match is stored under
`selected_rdr` in the active scope (threaded here explicitly). -/
def rdrShouldExist (rdrs : List Rdr) (ty : RdrKind) (id : String) (scope : Scope) :
    Except HpiErr Scope :=
  match findRdr rdrs ty id with
  | none => .error (.assertionError ("No FUMI RDR with id \"" ++ id ++ "\" found."))
  | some r => .ok (assocSet scope "selected_rdr" (SelVal.rdr r))

/-- One call to `listener.get(timeout)` as seen by the wait loop: it can
deliver an event after `d` time units, return `None` after `d` time units
(its own timeout expired), or raise `SaHpiError` after `d` time units. -/
inductive PollOutcome where
  | ev (e : Event) (d : Nat)
  | noneRet (d : Nat)
  | err (d : Nat)
  deriving DecidableEq

/-- How a run of `wait_until_event_queue_contains_event_type` ends, with the
logical time elapsed since `start_time`: the requested event was selected
and stored; the final `AssertionError` timeout failure was raised; a
transport error propagated; `event.event_type` was evaluated on `None`
(`AttributeError`); or the supplied poll trace ran out with the loop still
due to poll again. -/
inductive WaitOutcome where
  | selected (e : Event) (elapsed : Nat)
  | timedOut (elapsed : Nat)
  | transportError (elapsed : Nat)
  | crashed (elapsed : Nat)
  | stillPolling (elapsed : Nat)
  deriving DecidableEq

/-- The `while timeout > 0` loop of
`wait_until_event_queue_contains_event_type` (lines 193-206).  `timeoutVar`
is the local variable `timeout`, which the source computes once before the
loop (`end_time - time.time()`) and never updates, so the condition reads
the same value on every iteration.  On `SaHpiError` with `may_fail` the
code sleeps one poll interval and continues, otherwise it re-raises; a
delivered event is returned the moment its type matches, and a
non-matching event just loops without sleeping. -/
def eventWaitLoop (timeoutVar pollI etype : Nat) (mayFail : Bool) :
    List PollOutcome → Nat → WaitOutcome
  | trace, elapsed =>
    if 0 < timeoutVar then
      match trace with
      | [] => .stillPolling elapsed
      | .err d :: rest =>
          if mayFail then
            eventWaitLoop timeoutVar pollI etype mayFail rest (elapsed + d + pollI)
          else .transportError (elapsed + d)
      | .noneRet d :: _ => .crashed (elapsed + d)
      | .ev e d :: rest =>
          if e.eventType = etype then .selected e (elapsed + d)
          else eventWaitLoop timeoutVar pollI etype mayFail rest (elapsed + d)
    else .timedOut elapsed

/-- `wait_until_event_queue_contains_event_type` (lines 186-209): with
`start_time` taken as 0, the local `timeout` computed before the loop is
the configured timeout `T`, and the loop is entered with it fixed. -/
def waitUntilEventQueueContainsEventType (T pollI etype : Nat) (mayFail : Bool)
    (trace : List PollOutcome) : WaitOutcome :=
  eventWaitLoop T pollI etype mayFail trace 0

/-- One call to a status accessor (`bank.status()` or `test.status()[0]`)
as seen by a wait loop: a status value, or a raised `SaHpiError`, each
taking `d` time units. -/
inductive StatusPoll where
  | ok (v : Nat) (d : Nat)
  | err (d : Nat)
  deriving DecidableEq

/-- How a run of a state/status wait ends, with the logical time elapsed
since `start_time`. -/
inductive StateWaitOutcome where
  | reached (elapsed : Nat)
  | timedOut (elapsed : Nat)
  | transportError (elapsed : Nat)
  | exhausted (elapsed : Nat)
  deriving DecidableEq

/-- The `while time.time() < start_time + self._timeout` loop of
`wait_until_upgrade_state_is` (lines 369-382), with `start_time` taken as 0
and `now` the current `time.time()`: the deadline is re-checked against the
clock each iteration; `SaHpiError` with `may_fail` sleeps one poll interval
and continues, without `may_fail` it re-raises; a matching status returns;
a non-matching status sleeps one poll interval and loops. -/
def upgradeWaitLoop (T pollI target : Nat) (mayFail : Bool) :
    List StatusPoll → Nat → StateWaitOutcome
  | trace, now =>
    if now < T then
      match trace with
      | [] => .exhausted now
      | .err d :: rest =>
          if mayFail then
            upgradeWaitLoop T pollI target mayFail rest (now + d + pollI)
          else .transportError (now + d)
      | .ok v d :: rest =>
          if v = target then .reached (now + d)
          else upgradeWaitLoop T pollI target mayFail rest (now + d + pollI)
    else .timedOut now

/-- `wait_until_upgrade_state_is` (lines 365-386) from the point where the
target state is resolved and the selected bank is in hand. -/
def waitUntilUpgradeStateIs (T pollI target : Nat) (mayFail : Bool)
    (trace : List StatusPoll) : StateWaitOutcome :=
  upgradeWaitLoop T pollI target mayFail trace 0

/-- The `while time.time() < start_time + self._timeout` loop of
`wait_until_test_status_is` (lines 492-498): the method has no `may_fail`
parameter and no exception handler, so a raised `SaHpiError` always
propagates; a matching status returns; a non-matching status sleeps one
poll interval and loops. -/
def testStatusWaitLoop (T pollI target : Nat) :
    List StatusPoll → Nat → StateWaitOutcome
  | trace, now =>
    if now < T then
      match trace with
      | [] => .exhausted now
      | .err d :: _ => .transportError (now + d)
      | .ok v d :: rest =>
          if v = target then .reached (now + d)
          else testStatusWaitLoop T pollI target rest (now + d + pollI)
    else .timedOut now

/-- `wait_until_test_status_is` (lines 488-502) from the point where the
target status is resolved and the selected test is in hand. -/
def waitUntilTestStatusIs (T pollI target : Nat) (trace : List StatusPoll) :
    StateWaitOutcome :=
  testStatusWaitLoop T pollI target trace 0

/-- Python's `p.split('=', 1)`: split at the first `'='` only, giving a
one-element list when the separator does not occur. -/
def splitEqOnce : List Char → List (List Char)
  | [] => [[]]
  | c :: rest =>
      if c = '=' then [[], rest]
      else
        match splitEqOnce rest with
        | [] => [[c]]
        | x :: xs => (c :: x) :: xs

/-- `start_test` (lines 469-476): every token is split at its first `'='`;
a token yielding fewer than two parts (no `'='` at all) raises the
`RuntimeError`; otherwise the split pairs are passed in order to
`test.start`, with `None` in place of an empty list. -/
def startTest (params : List String) :
    Except HpiErr (Option (List (String × String))) :=
  match (params.map (fun p => splitEqOnce p.toList)).find?
      (fun q => q.length ≠ 2) with
  | some _ =>
      .error (.runtimeError "Parameters has to be in form of name=value")
  | none =>
      if params.map (fun p => splitEqOnce p.toList) = [] then .ok none
      else
        .ok (some ((params.map (fun p => splitEqOnce p.toList)).map
          (fun q => (String.mk q.headI, String.mk (q.getD 1 [])))))

/-- The spec's description of a well-formed token's parse: the name is the
text before the first `'='`, the value is everything after it. -/
def splitAtFirstEq (p : String) : String × String :=
  (String.mk (p.toList.takeWhile (fun c => c ≠ '=')),
   String.mk (p.toList.dropWhile (fun c => c ≠ '=')).tail)

/-- One symbol of the scanned namespace object: its name (as produced by
`dir(obj)`, in that order) and its value. -/
structure Attr where
  name : String
  val : Int
  deriving DecidableEq

/-- Modelled from the spec: `robot.utils.normalizing.normalize` with
`ignore='_'` (external to this repository) — the comparison key is the
string case-folded with whitespace and the ignored underscore characters
stripped. -/
def normalize (s : String) : String :=
  String.mk ((s.toList.filter fun c => ¬ (c = ' ' ∨ c = '_')).map Char.toLower)

/-- The value of a hexadecimal digit character, if it is one. -/
def hexDigit (c : Char) : Option Nat :=
  if '0' ≤ c ∧ c ≤ '9' then some (c.toNat - '0'.toNat)
  else if 'a' ≤ c ∧ c ≤ 'f' then some (c.toNat - 'a'.toNat + 10)
  else if 'A' ≤ c ∧ c ≤ 'F' then some (c.toNat - 'A'.toNat + 10)
  else none

/-- Digits of a given base read most-significant first; empty or invalid
digit sequences fail. -/
def parseDigits (base : Nat) (cs : List Char) : Option Nat :=
  if cs = [] then none
  else
    cs.foldl
      (fun acc c =>
        match acc, hexDigit c with
        | some n, some d => if d < base then some (n * base + d) else none
        | _, _ => none)
      (some 0)

/-- Python 2's `int(s, 0)`: surrounding whitespace and an optional sign,
then `0x`/`0X` hexadecimal, `0o`/`0O` octal, `0b`/`0B` binary, legacy
`0...` octal, or decimal. -/
def parseIntBase0 (s : String) : Option Int :=
  let cs := (((s.toList.dropWhile fun c => c.isWhitespace).reverse.dropWhile
      fun c => c.isWhitespace)).reverse
  let signed : Int × List Char :=
    match cs with
    | '-' :: rest => (-1, rest)
    | '+' :: rest => (1, rest)
    | _ => (1, cs)
  let mag : Option Nat :=
    match signed.2 with
    | '0' :: x :: rest =>
        if x = 'x' ∨ x = 'X' then parseDigits 16 rest
        else if x = 'o' ∨ x = 'O' then parseDigits 8 rest
        else if x = 'b' ∨ x = 'B' then parseDigits 2 rest
        else parseDigits 8 (x :: rest)
    | other => parseDigits 10 other
  mag.map fun n => signed.1 * n

/-- The error message of `find_attribute`: it interpolates the token and
the scanned object (`'Attribute "%s" in "%s" not found.'`). -/
def notFoundMsg (attr objName : String) : String :=
  "Attribute \"" ++ attr ++ "\" in \"" ++ objName ++ "\" not found."

/-- `find_attribute` (utils.py lines 3-16): scan the object's attributes in
`dir` order and return the value of the first whose normalized name equals
the normalized `prefix + attr`; with no match, fall back to Python
`int(attr, 0)`; if that fails too, raise the `RuntimeError` naming the
token and the object. -/
def findAttribute (attrs : List Attr) (objName : String) (attr : String)
    (pfx : String) : Except HpiErr Int :=
  match attrs.find? (fun a => normalize a.name = normalize (pfx ++ attr)) with
  | some a => .ok a.val
  | none =>
      match parseIntBase0 attr with
      | some n => .ok n
      | none => .error (.runtimeError (notFoundMsg attr objName))

/-- The empty library state a fresh `HpiLibrary(timeout=10, poll_interval=1)`
starts in. -/
def st0 : LibState :=
  { cache := { entries := [], currentIndex := none }
    activeSession := none
    activeDevice := none
    storage := []
    timeout := 10
    pollInterval := 1 }

/-- The state after opening two connections (sessions 101 and 202). -/
def stTwo : LibState :=
  (openHpiConnection (openHpiConnection st0 101 none).2 202 none).2

/-- A state with session 101 active and no scope created yet. -/
def stOneActive : LibState :=
  { st0 with activeSession := some 101 }

/-! ## Theorems -/

/-- Helper: with events of a non-matching type delivered on every poll, one
loop iteration neither changes the loop's timeout variable nor exits, for
any starting elapsed time. -/
theorem eventWaitLoop_nonmatching_replicate (n e0 : Nat) :
    eventWaitLoop 10 1 7 false (List.replicate n (PollOutcome.ev ⟨3⟩ 1)) e0
      = WaitOutcome.stillPolling (e0 + n) := by
  induction n generalizing e0 with
  | zero => simp [eventWaitLoop]
  | succ n ih =>
      rw [List.replicate_succ]
      simp only [eventWaitLoop]
      norm_num
      rw [ih]
      congr 1
      omega

/-- Helper: with tolerated transport errors raised on every poll, one loop
iteration sleeps and retries without ever exiting, for any starting elapsed
time. -/
theorem eventWaitLoop_err_replicate (n e0 : Nat) :
    eventWaitLoop 10 1 7 true (List.replicate n (PollOutcome.err 1)) e0
      = WaitOutcome.stillPolling (e0 + 2 * n) := by
  induction n generalizing e0 with
  | zero => simp [eventWaitLoop]
  | succ n ih =>
      rw [List.replicate_succ]
      simp only [eventWaitLoop]
      norm_num
      rw [ih]
      congr 1
      omega

/-- C1: refuted as stated (code bug).  With two open connections (indices
1 and 2, sessions 101 and 202), `switch_hpi_connection(1)` returns the
previously current index 2 and makes entry 1 current in the cache, but it
assigns the resolved session to `_active_device` and leaves
`_active_session` — the session every subsequent keyword operates on —
still at session 202 instead of session 101. -/
theorem switch_hpi_connection_ignores_active_session :
    (openHpiConnection st0 101 none).1 = 1
  ∧ (openHpiConnection (openHpiConnection st0 101 none).2 202 none).1 = 2
  ∧ stTwo.activeSession = some 202
  ∧ (switchHpiConnection stTwo (IndexOrAlias.idx 1)).map
      (fun r => (r.1, r.2.activeSession, r.2.activeDevice, r.2.cache.currentIndex))
      = Except.ok (some 2, some 202, some 101, some 1) := by
  decide

/-- C2: refuted as stated (code bug).  The loop variable `timeout` of
`wait_until_event_queue_contains_event_type` is computed once before the
loop and never updated, so: with a non-matching event delivered by every
poll the wait loops forever (after `n` polls, `n` time units — past any
deadline — it is still polling); with `may_fail` and a transport error on
every poll it likewise loops forever; and with a quiet queue the poll
returns `None` at the deadline and the code crashes evaluating
`event.event_type` instead of raising the timeout `AssertionError`. -/
theorem wait_event_loop_never_reaches_timeout :
    (∀ n : Nat, waitUntilEventQueueContainsEventType 10 1 7 false
        (List.replicate n (PollOutcome.ev ⟨3⟩ 1)) = WaitOutcome.stillPolling n)
  ∧ (∀ n : Nat, waitUntilEventQueueContainsEventType 10 1 7 true
        (List.replicate n (PollOutcome.err 1)) = WaitOutcome.stillPolling (2 * n))
  ∧ waitUntilEventQueueContainsEventType 10 1 7 false [PollOutcome.noneRet 10]
      = WaitOutcome.crashed 10 := by
  refine ⟨fun n => ?_, fun n => ?_, by decide⟩
  · simpa using eventWaitLoop_nonmatching_replicate n 0
  · simpa using eventWaitLoop_err_replicate n 0

/-- Helper: a token without `'='` survives `split('=', 1)` whole, as a
one-element list. -/
theorem splitEqOnce_no_eq (cs : List Char) (h : '=' ∉ cs) :
    splitEqOnce cs = [cs] := by
  induction cs with
  | nil => rfl
  | cons c rest ih =>
      have hc : ¬ c = '=' := fun hc => h (hc ▸ List.mem_cons_self c rest)
      have hrest : '=' ∉ rest := fun hm => h (List.mem_cons_of_mem c hm)
      simp only [splitEqOnce, if_neg hc, ih hrest]

/-- Helper: a token containing `'='` splits at the first occurrence into
the text before it and everything after it. -/
theorem splitEqOnce_with_eq (cs : List Char) (h : '=' ∈ cs) :
    splitEqOnce cs =
      [cs.takeWhile (fun c => c ≠ '='), (cs.dropWhile (fun c => c ≠ '=')).tail] := by
  induction cs with
  | nil => cases h
  | cons c rest ih =>
      by_cases hc : c = '='
      · subst hc
        simp [splitEqOnce, List.takeWhile_cons, List.dropWhile_cons]
      · have hrest : '=' ∈ rest := by
          rcases List.mem_cons.mp h with h1 | h1
          · exact absurd h1.symm hc
          · exact h1
        simp only [splitEqOnce, if_neg hc, ih hrest, List.takeWhile_cons,
          List.dropWhile_cons]
        simp [hc]

/-- C3 counterexample: `start_test("a=1=2")` succeeds, parsing the token
with two `'='` characters as `("a", "1=2")`, although the claim says a
token must contain exactly one `'='` or the keyword fails. -/
theorem start_test_accepts_two_equals_cex :
    startTest ["a=1=2"] = Except.ok (some [("a", "1=2")])
  ∧ "a=1=2".toList.count '=' = 2 := by
  decide

/-- C3 amended: a token must contain at least one `'='`; each token is
split at its first `'='` into name and value (the value may itself contain
further `'='` characters), the pairs are passed in order, and an empty
parameter sequence passes none instead of an empty list; a token without
`'='` fails with the malformed-parameter `RuntimeError`. -/
theorem start_test_amended (params : List String) :
    ((∀ p ∈ params, '=' ∈ p.toList) →
      startTest params =
        Except.ok (if params = [] then none else some (params.map splitAtFirstEq)))
  ∧ ((∃ p ∈ params, '=' ∉ p.toList) →
      startTest params =
        Except.error (HpiErr.runtimeError "Parameters has to be in form of name=value")) := by
  constructor
  · intro hall
    have hfind : (params.map fun p => splitEqOnce p.toList).find?
        (fun q => q.length ≠ 2) = none := by
      rw [List.find?_eq_none]
      intro q hq
      simp only [List.mem_map] at hq
      obtain ⟨p, hp, rfl⟩ := hq
      rw [splitEqOnce_with_eq p.toList (hall p hp)]
      simp
    have hmap : (params.map fun p => splitEqOnce p.toList).map
        (fun q => (String.mk q.headI, String.mk (q.getD 1 []))) =
        params.map splitAtFirstEq := by
      rw [List.map_map]
      refine List.map_congr_left fun p hp => ?_
      simp only [Function.comp_apply]
      rw [splitEqOnce_with_eq p.toList (hall p hp)]
      rfl
    cases params with
    | nil => simp [startTest]
    | cons p ps =>
        simp only [startTest, hfind, hmap]
        simp
  · rintro ⟨p, hp, hne⟩
    have hlen : (splitEqOnce p.toList).length = 1 := by
      rw [splitEqOnce_no_eq p.toList hne]
      rfl
    have hsome : (params.map fun p => splitEqOnce p.toList).find?
        (fun q => q.length ≠ 2) ≠ none := by
      intro hnone
      rw [List.find?_eq_none] at hnone
      have h2 := hnone (splitEqOnce p.toList) (List.mem_map_of_mem _ hp)
      rw [hlen] at h2
      simp at h2
    obtain ⟨q, hq⟩ := Option.ne_none_iff_exists'.mp hsome
    simp only [startTest, hq]

/-- C3 witness: well-formed tokens parse to their pairs in order. -/
theorem start_test_amended_witness :
    startTest ["a=1", "b=2"] = Except.ok (some [("a", "1"), ("b", "2")]) := by
  have h := (start_test_amended ["a=1", "b=2"]).1 (by decide)
  rw [h]
  decide

/-- C4 counterexample: `wait_until_test_status_is` has no `may_fail`
parameter and no exception handler, so there is no mode in which a
transport error is swallowed: on a trace that raises once and then reports
the target status, the test-status wait propagates the error immediately,
while `wait_until_upgrade_state_is` with `may_fail` swallows it, sleeps one
poll interval and reaches the target — refuting the claim that both
state/status waits share the `may_fail` behavior. -/
theorem wait_test_status_has_no_tolerant_mode_cex :
    waitUntilTestStatusIs 10 1 5 [StatusPoll.err 0, StatusPoll.ok 5 0]
      = StateWaitOutcome.transportError 0
  ∧ waitUntilUpgradeStateIs 10 1 5 true [StatusPoll.err 0, StatusPoll.ok 5 0]
      = StateWaitOutcome.reached 1 := by
  decide

/-- C4 amended: in the event-type wait and the upgrade-state wait, a
transport error raised during a poll attempt propagates immediately without
sleeping when `may_fail` is false, and when `may_fail` is true it is
swallowed, the wait sleeps one poll interval and polling retries; the
test-status wait has no `may_fail` option and a transport error always
propagates immediately. -/
theorem wait_transport_error_amended (T pollI targ etype now elapsed d : Nat)
    (srest : List StatusPoll) (erest : List PollOutcome)
    (hnow : now < T) (hT : 0 < T) :
    (upgradeWaitLoop T pollI targ false (StatusPoll.err d :: srest) now
        = StateWaitOutcome.transportError (now + d))
  ∧ (upgradeWaitLoop T pollI targ true (StatusPoll.err d :: srest) now
        = upgradeWaitLoop T pollI targ true srest (now + d + pollI))
  ∧ (testStatusWaitLoop T pollI targ (StatusPoll.err d :: srest) now
        = StateWaitOutcome.transportError (now + d))
  ∧ (eventWaitLoop T pollI etype false (PollOutcome.err d :: erest) elapsed
        = WaitOutcome.transportError (elapsed + d))
  ∧ (eventWaitLoop T pollI etype true (PollOutcome.err d :: erest) elapsed
        = eventWaitLoop T pollI etype true erest (elapsed + d + pollI)) := by
  refine ⟨?_, ?_, ?_, ?_, ?_⟩ <;>
    simp [upgradeWaitLoop, testStatusWaitLoop, eventWaitLoop, hnow, hT]

/-- C4 witness: the amended transport-error behavior at timeout 10, poll
interval 1, a 2-unit poll and concrete targets. -/
theorem wait_transport_error_amended_witness :
    (upgradeWaitLoop 10 1 5 false [StatusPoll.err 2] 0
        = StateWaitOutcome.transportError 2)
  ∧ (upgradeWaitLoop 10 1 5 true [StatusPoll.err 2] 0
        = upgradeWaitLoop 10 1 5 true [] 3)
  ∧ (testStatusWaitLoop 10 1 5 [StatusPoll.err 2] 0
        = StateWaitOutcome.transportError 2)
  ∧ (eventWaitLoop 10 1 7 false [PollOutcome.err 2] 0
        = WaitOutcome.transportError 2)
  ∧ (eventWaitLoop 10 1 7 true [PollOutcome.err 2] 0
        = eventWaitLoop 10 1 7 true [] 3) := by
  have h := wait_transport_error_amended 10 1 5 7 0 0 2 [] []
    (by decide) (by decide)
  simpa using h

/-- Helper: `find?` over a list whose prefix contains no match returns the
first match that follows the prefix. -/
theorem find?_prefix_none {α : Type} (p : α → Bool) (pre : List α) (r : α)
    (post : List α) (hpre : ∀ x ∈ pre, p x = false) (hr : p r = true) :
    (pre ++ r :: post).find? p = some r := by
  induction pre with
  | nil => simp [List.find?_cons_of_pos, hr]
  | cons x rest ih =>
      have hx := hpre x (List.mem_cons_self x rest)
      rw [List.cons_append, List.find?_cons_of_neg _ (by simp [hx])]
      exact ih fun y hy => hpre y (List.mem_cons_of_mem x hy)

/-- Helper: the comparison key is computed character-wise, so it
distributes over concatenation. -/
theorem normalize_append (a b : String) :
    normalize (a ++ b) = normalize a ++ normalize b := by
  simp only [normalize, String.toList, String.data_append, List.filter_append,
    List.map_append]
  rfl

/-- C5 counterexample: when neither a symbolic match nor an integer parse
succeeds, the raised error interpolates the offending token and the scanned
object — the searched prefix appears nowhere in it. -/
theorem find_attribute_error_lacks_prefix_cex :
    findAttribute [⟨"SAHPI_ET_FUMI", 28⟩] "sahpi" "zzz" "SAHPI_ET_"
      = Except.error
          (HpiErr.runtimeError "Attribute \"zzz\" in \"sahpi\" not found.")
  ∧ ¬ ("SAHPI_ET_".toList <:+:
        "Attribute \"zzz\" in \"sahpi\" not found.".toList) := by
  exact ⟨by decide, by decide⟩

/-- C5 amended: the resolver scans the namespace in `dir` order and returns
the value of the first symbol whose normalized form (case-folded, with
whitespace and underscores stripped) equals the normalized
`prefix + token`, so arbitrary casing and inserted/removed separators
resolve identically and a later symbol normalizing the same is ignored;
with no symbolic match it returns the token parsed as a base-prefixed or
decimal integer literal; and if neither succeeds it fails with a
name-resolution error carrying the offending token and the scanned
namespace object (not the searched prefix). -/
theorem find_attribute_amended (attrs : List Attr) (objName tok pfx : String) :
    (∀ pre a post, attrs = pre ++ a :: post →
      normalize a.name = normalize (pfx ++ tok) →
      (∀ x ∈ pre, normalize x.name ≠ normalize (pfx ++ tok)) →
      findAttribute attrs objName tok pfx = Except.ok a.val)
  ∧ ((∀ a ∈ attrs, normalize a.name ≠ normalize (pfx ++ tok)) →
      findAttribute attrs objName tok pfx =
        match parseIntBase0 tok with
        | some n => Except.ok n
        | none => Except.error (HpiErr.runtimeError (notFoundMsg tok objName)))
  ∧ (∀ tok2, normalize tok2 = normalize tok →
      (∃ a ∈ attrs, normalize a.name = normalize (pfx ++ tok)) →
      findAttribute attrs objName tok pfx = findAttribute attrs objName tok2 pfx) := by
  refine ⟨?_, ?_, ?_⟩
  · intro pre a post hsplit hmatch hpre
    have hf : attrs.find?
        (fun x => normalize x.name = normalize (pfx ++ tok)) = some a := by
      rw [hsplit]
      refine find?_prefix_none _ pre a post (fun x hx => ?_) (by simpa using hmatch)
      simpa using hpre x hx
    simp only [findAttribute, hf]
  · intro hall
    have hn : attrs.find?
        (fun a => normalize a.name = normalize (pfx ++ tok)) = none := by
      rw [List.find?_eq_none]
      intro a ha
      simpa using hall a ha
    simp only [findAttribute, hn]
  · intro tok2 hn2 hex
    have key : normalize (pfx ++ tok2) = normalize (pfx ++ tok) := by
      rw [normalize_append, normalize_append, hn2]
    have hfind : attrs.find? (fun a => normalize a.name = normalize (pfx ++ tok2))
        = attrs.find? (fun a => normalize a.name = normalize (pfx ++ tok)) := by
      congr 1
      funext a
      rw [key]
    have hne : attrs.find?
        (fun a => normalize a.name = normalize (pfx ++ tok)) ≠ none := by
      intro hn
      rw [List.find?_eq_none] at hn
      obtain ⟨a, ha, hna⟩ := hex
      exact hn a ha (by simpa using hna)
    obtain ⟨a, ha⟩ := Option.ne_none_iff_exists'.mp hne
    simp only [findAttribute, hfind, ha]

/-- C5 witness: the token `"fu mi"` with prefix `SAHPI_ET_` resolves by
normalized comparison to the first symbol in `dir` order, `SAHPI_ET_FUMI`,
even though the later `SAHPI_ETFUMI` normalizes identically; and with no
symbolic match a token parses as a hexadecimal literal. -/
theorem find_attribute_amended_witness :
    findAttribute [⟨"SAHPI_ET_FUMI", 28⟩, ⟨"SAHPI_ETFUMI", 99⟩] "sahpi"
        "fu mi" "SAHPI_ET_" = Except.ok 28
  ∧ findAttribute [⟨"SAHPI_ET_FUMI", 28⟩] "sahpi" "0x1a" "SAHPI_ET_"
        = Except.ok 26 := by
  constructor
  · exact (find_attribute_amended [⟨"SAHPI_ET_FUMI", 28⟩, ⟨"SAHPI_ETFUMI", 99⟩]
      "sahpi" "fu mi" "SAHPI_ET_").1 [] ⟨"SAHPI_ET_FUMI", 28⟩
      [⟨"SAHPI_ETFUMI", 99⟩] rfl (by decide) (by decide)
  · have h := (find_attribute_amended [⟨"SAHPI_ET_FUMI", 28⟩] "sahpi" "0x1a"
      "SAHPI_ET_").2.1 (by decide)
    rw [h]
    decide

/-- C6: confirmed.  Accessing the per-connection scope with no active
connection fails with the no-active-connection `RuntimeError`, and reading
any selection key that was never set in the active connection's scope fails
with a `KeyError` naming that key — both are raised exception values, which
the test runner reports as the keyword's failure. -/
theorem selection_store_error_behavior (st : LibState) (k : String) :
    (st.activeSession = none →
      cpRead st k = Except.error (HpiErr.runtimeError "No connection active"))
  ∧ (∀ h, st.activeSession = some h →
      assocGet ((assocGet st.storage h).getD []) k = none →
      cpRead st k = Except.error (HpiErr.keyError k)) := by
  constructor
  · intro hnone
    simp only [cpRead, cpScope, hnone]
  · intro h hact hk
    simp only [cpRead, cpScope, hact]
    cases hsg : assocGet st.storage h with
    | none =>
        simp only [hsg]
        rfl
    | some sc =>
        simp only [hsg, Option.getD_some] at hk
        simp only [hsg, hk]

/-- C6 witness: reading `entity_path` with no active connection, and with
an active connection whose scope never had it set. -/
theorem selection_store_error_behavior_witness :
    cpRead st0 "entity_path"
      = Except.error (HpiErr.runtimeError "No connection active")
  ∧ cpRead stOneActive "entity_path"
      = Except.error (HpiErr.keyError "entity_path") :=
  ⟨(selection_store_error_behavior st0 "entity_path").1 rfl,
   (selection_store_error_behavior stOneActive "entity_path").2 101 rfl rfl⟩

/-- Helper: looking up the key just written in an association list finds
the new value. -/
theorem assocGet_assocSet_self {α β : Type} [DecidableEq α]
    (l : List (α × β)) (k : α) (v : β) :
    assocGet (assocSet l k v) k = some v := by
  induction l with
  | nil => simp [assocGet, assocSet]
  | cons e rest ih =>
      by_cases hk : e.1 = k
      · simp [assocSet, assocGet, hk]
      · simp [assocSet, assocGet, hk, ih]

/-- Helper: writing one key of an association list leaves every other
key's lookup unchanged. -/
theorem assocGet_assocSet_ne {α β : Type} [DecidableEq α]
    (l : List (α × β)) (k k2 : α) (v : β) (hne : k2 ≠ k) :
    assocGet (assocSet l k v) k2 = assocGet l k2 := by
  have h' : ¬ k = k2 := fun hh => hne hh.symm
  induction l with
  | nil => simp [assocGet, assocSet, h']
  | cons e rest ih =>
      by_cases hk : e.1 = k
      · simp [assocSet, assocGet, hk, h']
      · simp only [assocSet, if_neg hk, assocGet, ih]

/-- C7: confirmed.  The active connection's scope is created lazily (an
empty scope is stored on first access), an existing scope is returned
as-is on every later access, and a write through the active handle's scope
changes only that handle's stored scope: any other handle's lookup is
untouched, so scopes of distinct handles never alias. -/
theorem selection_scope_isolation (st : LibState) (h h2 : Session) (k : String)
    (v : SelVal) (hact : st.activeSession = some h) (hne : h2 ≠ h) :
    (assocGet st.storage h = none →
      cpScope st = Except.ok ([], { st with storage := st.storage ++ [(h, [])] }))
  ∧ (∀ sc, assocGet st.storage h = some sc → cpScope st = Except.ok (sc, st))
  ∧ (∀ st3, cpWrite st k v = Except.ok st3 →
      assocGet st3.storage h2 = assocGet st.storage h2 ∧
      assocGet st3.storage h =
        some (assocSet ((assocGet st.storage h).getD []) k v)) := by
  refine ⟨?_, ?_, ?_⟩
  · intro hs
    simp only [cpScope, hact, hs]
  · intro sc hs
    simp only [cpScope, hact, hs]
  · intro st3 hw
    simp only [cpWrite, hact, Except.ok.injEq] at hw
    subst hw
    constructor
    · exact assocGet_assocSet_ne st.storage h h2 _ hne
    · exact assocGet_assocSet_self st.storage h _

/-- C7 witness: lazy creation of session 101's scope in a state where no
scope exists yet, with 202 as the distinct other handle. -/
theorem selection_scope_isolation_witness :
    cpScope stOneActive
      = Except.ok ([], { stOneActive with storage := [(101, [])] }) := by
  have h := (selection_scope_isolation stOneActive 101 202 "fumi_number"
    (SelVal.num 7) rfl (by decide)).1 rfl
  simpa using h

/-- C8: confirmed.  Resolving the selected resource succeeds exactly when
the session returned exactly one resource for the selected entity path;
zero matches and more than one match fail with the same `RuntimeError` —
the layer does not distinguish "not found" from "ambiguous". -/
theorem selected_resource_exactly_one (res : List Resource) :
    ((∃ r, selectedResource res = Except.ok r) ↔ res.length = 1)
  ∧ (res.length ≠ 1 →
      selectedResource res = Except.error (HpiErr.runtimeError resourceErrMsg))
  ∧ (∀ r, res = [r] → selectedResource res = Except.ok r) := by
  refine ⟨⟨?_, ?_⟩, ?_, ?_⟩
  · rintro ⟨r, hr⟩
    by_contra hlen
    simp only [selectedResource, dif_neg hlen] at hr
    exact Except.noConfusion hr
  · intro hlen
    exact ⟨res.get ⟨0, by omega⟩, by simp only [selectedResource, dif_pos hlen]⟩
  · intro hlen
    simp only [selectedResource, dif_neg hlen]
  · rintro r rfl
    simp [selectedResource]

/-- C8 witness: one matching resource is selected; zero and two matching
resources fail with the identical error value. -/
theorem selected_resource_exactly_one_witness :
    selectedResource [⟨"p", []⟩] = Except.ok ⟨"p", []⟩
  ∧ selectedResource ([] : List Resource)
      = Except.error (HpiErr.runtimeError resourceErrMsg)
  ∧ selectedResource [⟨"p", []⟩, ⟨"p", []⟩]
      = Except.error (HpiErr.runtimeError resourceErrMsg) :=
  ⟨(selected_resource_exactly_one [⟨"p", []⟩]).2.2 ⟨"p", []⟩ rfl,
   (selected_resource_exactly_one []).2.1 (by decide),
   (selected_resource_exactly_one [⟨"p", []⟩, ⟨"p", []⟩]).2.1 (by decide)⟩

/-- C9: confirmed.  Record selection returns the first record in the
selected resource's declaration order whose runtime class and id string
match and stores it under `selected_rdr`; later duplicates are silently
ignored; and with no matching record it fails with the record-not-found
`AssertionError`. -/
theorem rdr_selection_first_match (rdrs : List Rdr) (ty : RdrKind) (id : String)
    (scope : Scope) :
    ((∀ x ∈ rdrs, rdrMatches ty id x = false) →
      rdrShouldExist rdrs ty id scope =
        Except.error (HpiErr.assertionError
          ("No FUMI RDR with id \"" ++ id ++ "\" found.")))
  ∧ (∀ pre r post, rdrs = pre ++ r :: post → rdrMatches ty id r = true →
      (∀ x ∈ pre, rdrMatches ty id x = false) →
      rdrShouldExist rdrs ty id scope =
        Except.ok (assocSet scope "selected_rdr" (SelVal.rdr r))) := by
  constructor
  · intro hall
    have hn : findRdr rdrs ty id = none := by
      rw [findRdr, List.find?_eq_none]
      intro x hx
      simp [hall x hx]
    simp only [rdrShouldExist, hn]
  · intro pre r post hsplit hr hpre
    have hf : findRdr rdrs ty id = some r := by
      rw [findRdr, hsplit]
      exact find?_prefix_none _ pre r post hpre hr
    simp only [rdrShouldExist, hf]

/-- C9 witness: among two FUMI records sharing the id string, the first
declared one is selected and stored; an absent (class, id) pair errors. -/
theorem rdr_selection_first_match_witness :
    rdrShouldExist [⟨.dimi, "a", 1⟩, ⟨.fumi, "a", 2⟩, ⟨.fumi, "a", 3⟩]
        .fumi "a" []
      = Except.ok [("selected_rdr", SelVal.rdr ⟨.fumi, "a", 2⟩)]
  ∧ rdrShouldExist [⟨.dimi, "a", 1⟩] .fumi "a" []
      = Except.error (HpiErr.assertionError "No FUMI RDR with id \"a\" found.") := by
  constructor
  · have h := (rdr_selection_first_match
      [⟨.dimi, "a", 1⟩, ⟨.fumi, "a", 2⟩, ⟨.fumi, "a", 3⟩] .fumi "a" []).2
      [⟨.dimi, "a", 1⟩] ⟨.fumi, "a", 2⟩ [⟨.fumi, "a", 3⟩] rfl (by decide)
      (by decide)
    rw [h]
    rfl
  · have h := (rdr_selection_first_match [⟨.dimi, "a", 1⟩] .fumi "a" []).1
      (by decide)
    rw [h]
    rfl

/-- C10: confirmed.  With a session active, `close_hpi_connection` emits a
close on that session's transport and changes nothing else: the connection
cache (so the session's registration), the active-session reference and
every per-connection selection scope are exactly as before. -/
theorem close_connection_frame (st : LibState) (s : Session)
    (hs : st.activeSession = some s) :
    closeHpiConnection st = Except.ok ([Effect.closeTransport s], st)
  ∧ (∀ fx st2, closeHpiConnection st = Except.ok (fx, st2) →
      st2.cache = st.cache ∧ st2.activeSession = some s ∧
      st2.storage = st.storage ∧ fx = [Effect.closeTransport s]) := by
  have h1 : closeHpiConnection st = Except.ok ([Effect.closeTransport s], st) := by
    simp only [closeHpiConnection, hs]
  refine ⟨h1, ?_⟩
  intro fx st2 h2
  rw [h1] at h2
  simp only [Except.ok.injEq, Prod.mk.injEq] at h2
  obtain ⟨hfx, hst⟩ := h2
  subst hfx
  subst hst
  exact ⟨rfl, hs, rfl, rfl⟩

/-- C10 witness: closing with session 101 active emits exactly the
transport close and returns the state unchanged. -/
theorem close_connection_frame_witness :
    closeHpiConnection stOneActive
      = Except.ok ([Effect.closeTransport 101], stOneActive) :=
  (close_connection_frame stOneActive 101 rfl).1

end HpiLibrary
